import Mathlib

/-!
Verification of the bridgeroni analytics scripts.

The repository contains two report pipelines, `analyze/stargate-stats.py`
and `src/analyze/across-stats.py` (plus an out-of-scope JSON extraction
utility).  Both pipelines issue GraphQL queries through `run_query`
(lines 6-17 of each script), which raises when the response has no
`data` key, and render a sequence of console report sections, some of
which are wrapped in their own try/except block and some of which are
not.

This file is a shallow embedding of those scripts:

* the control flow of `main` (which sections catch a query failure and
  which let it abort the run) is modelled by `stargateReport` and
  `acrossReport` over an abstract query environment;
* the numeric-field coercion of the list comprehensions
  (`int(p[...]) ... if p[...] is not None`) is modelled by
  `extractAmounts` over an abstract Python value;
* the statistics block (`statistics.mean`, `statistics.median`,
  `min`, `max`, `statistics.stdev` guarded by `len > 1`) is modelled by
  `describe`;
* the route aggregation of stargate-stats.py lines 104-117 is modelled
  by `aggregate_routes` and `rankRoutes` over Python-dict association
  lists;
* the GUID matching of stargate-stats.py lines 135-166 is modelled by
  `pyDict`, `sent_guids`, `received_guids`, `matched_guids`,
  `matchRate`.

Python dicts are modelled as association lists with in-place value
overwrite, preserving insertion order, exactly as CPython dicts behave;
Python `sorted` is modelled by the stable `List.insertionSort`;
Python float division is modelled by exact rational division.
-/

namespace Bridgeroni

/-! ## Report pipeline control flow

`run_query` either returns the decoded result sets or raises
(`QueryFailure`).  For the control-flow claims only success or failure
of each query matters, so a run is abstracted by an environment mapping
each queried result-set name to `Except.ok ()` (the query returned
data) or `Except.error e` (run_query raised with message `e`).  The
external source is deterministic within a run, matching the scripts,
which never re-issue a failed query. -/
def QueryEnv : Type := String → Except String Unit

/-- One line of report section 1 (stargate-stats.py lines 27-34,
across-stats.py lines 27-34): each raw-count query is wrapped in its
own try/except, printing the count on success and an inline error note
on failure. -/
def renderCountLine (et : String) (r : Except String Unit) : String :=
  match r with
  | Except.ok _ => et ++ ": ok"
  | Except.error e => et ++ ": Error - " ++ e

/-- Event types queried by section 1 of stargate-stats.py (lines 21-26). -/
def stargateEventTypes : List String :=
  ["StargatePool_OFTSent", "StargatePool_OFTReceived",
   "EndpointV2_PacketSent", "EndpointV2_PacketDelivered"]

/-- Section 3 of stargate-stats.py (lines 55-91): one try/except
around the AppPayload query and its statistics; on failure the inline
error note of line 91 is rendered for this section only. -/
def renderAppPayload (r : Except String Unit) : String :=
  match r with
  | Except.ok _ => "StargateV2 AppPayloads"
  | Except.error e => "StargateV2 AppPayload analysis error: " ++ e

/-- Section 4 of stargate-stats.py (lines 93-120): one try/except
around the OFTSent routing query; on failure the inline error note of
line 120 is rendered for this section only. -/
def renderEidRouting (r : Except String Unit) : String :=
  match r with
  | Except.ok _ => "Source EID to Destination EID ranking"
  | Except.error e => "EID routing analysis error: " ++ e

/-- Section 6 of stargate-stats.py (lines 135-169): one try/except
around both GUID queries (OFTSent then OFTReceived, issued in that
order); a failure of either is rendered as the inline error note of
line 169 for this section only. -/
def renderGuidMatching (r1 r2 : Except String Unit) : String :=
  match r1 with
  | Except.error e => "GUID matching analysis error: " ++ e
  | Except.ok _ =>
    match r2 with
    | Except.error e => "GUID matching analysis error: " ++ e
    | Except.ok _ => "GUID Matching Analysis"

/-- The ordered section lines of a stargate-stats.py run that was not
aborted: the four raw-count lines (each query in its own try, lines
27-34), the CrosschainMessage heading (section 2), the AppPayload
section, the EID-routing section, the latency section (lines 122-133,
no query of its own) and the GUID-matching section. -/
def stargateSections (env : QueryEnv) : List String :=
  stargateEventTypes.map (fun et => renderCountLine et (env et)) ++
    ["LayerZero CrosschainMessages",
     renderAppPayload (env "AppPayload"),
     renderEidRouting (env "StargatePool_OFTSent"),
     "LayerZero Latency statistics",
     renderGuidMatching (env "StargatePool_OFTSent")
       (env "StargatePool_OFTReceived")]

/-- Control-flow skeleton of `main` in stargate-stats.py.  Section
bodies are abstracted to their rendered heading or inline error note;
what is kept faithfully is which query each section issues and where
the try/except boundaries sit.  The CrosschainMessage query at line
50 (section 2, lines 36-53) is NOT wrapped in any try, so its failure
propagates out of `main`, modelled by returning `Except.error`; every
other query failure is contained in its own section's rendering. -/
def stargateReport (env : QueryEnv) : Except String (List String) :=
  match env "CrosschainMessage" with
  | Except.error e => Except.error e
  | Except.ok _ => Except.ok (stargateSections env)

/-- Event types queried by section 1 of across-stats.py (lines 21-26). -/
def acrossEventTypes : List String :=
  ["SpokePool_FilledRelay", "SpokePool_FilledV3Relay",
   "SpokePool_FundsDeposited", "CrosschainMessage"]

/-- The ordered section lines of an across-stats.py run that was not
aborted: the raw-count lines (each query in its own try, lines 27-34)
and the remaining sections, which issue no further queries. -/
def acrossSections (env : QueryEnv) : List String :=
  acrossEventTypes.map (fun et => renderCountLine et (env et)) ++
    ["Matched CrosschainMessages", "Source to Destination ranking",
     "Latency statistics"]

/-- Control-flow skeleton of `main` in across-stats.py: section 1
(lines 27-34) wraps each raw-count query in its own try; the matched
CrosschainMessage query at line 49 is NOT wrapped, so its failure
aborts the run; sections 3 and 4 (ranking, latency) issue no further
queries. -/
def acrossReport (env : QueryEnv) : Except String (List String) :=
  match env "CrosschainMessage" with
  | Except.error e => Except.error e
  | Except.ok _ => Except.ok (acrossSections env)

/-- A run in which exactly the CrosschainMessage query fails. -/
def failCCMEnv : QueryEnv :=
  fun n => if n = "CrosschainMessage" then Except.error "boom" else Except.ok ()

/-- A run in which exactly the AppPayload query fails. -/
def failAppPayloadEnv : QueryEnv :=
  fun n => if n = "AppPayload" then Except.error "boom" else Except.ok ()

/-! ## Numeric field coercion

A record field as it comes out of the decoded JSON: Python `None`, a
value that coerces to an integer under `int(...)` (integers and numeric
strings), or a value on which `int(...)` raises (non-numeric). -/
inductive PyVal where
  | vNull : PyVal
  | vNum : ℤ → PyVal
  | vNonNum : String → PyVal
deriving DecidableEq, Repr

/-- Python `int(v)` coercion: yields the integer for numeric values,
raises TypeError on `None` and ValueError on non-numeric values,
modelled by `Except.error`. -/
def pyIntCoerce : PyVal → Except String ℤ
  | PyVal.vNull => Except.error "TypeError"
  | PyVal.vNum n => Except.ok n
  | PyVal.vNonNum s => Except.error ("ValueError: " ++ s)

/-- The filtered coercion comprehension
`[int(p[f]) for p in ps if p[f] is not None]` of stargate-stats.py
lines 73-74 and 123 and across-stats.py line 64: records whose field is
`None` are skipped by the filter; for every other record `int` is
applied and its exception, if any, propagates out of the whole
comprehension. -/
def extractAmounts : List PyVal → Except String (List ℤ)
  | [] => Except.ok []
  | v :: rest =>
    if v = PyVal.vNull then extractAmounts rest
    else
      match pyIntCoerce v with
      | Except.error e => Except.error e
      | Except.ok n =>
        match extractAmounts rest with
        | Except.error e => Except.error e
        | Except.ok ns => Except.ok (n :: ns)

/-- The numeric value of a field, if it has one. -/
def numOf : PyVal → Option ℤ
  | PyVal.vNum n => some n
  | _ => none

/-! ## Statistics engine

stargate-stats.py lines 123-131 and across-stats.py lines 64-72 print
count, `statistics.mean`, `statistics.median`, `min`, `max` and, only
when `len > 1`, `statistics.stdev`; lines 76-88 print count, sum, mean
and median of the amount lists.  Exact rational arithmetic stands in
for Python float arithmetic. -/

/-- Python `min(l)` for a list of integers: fold of binary min over the
first element.  The scripts only call it on nonempty lists (they guard
with `if latencies:`); the empty case returns 0 and is never used. -/
def pyMin : List ℤ → ℤ
  | [] => 0
  | x :: xs => xs.foldl min x

/-- Python `max(l)`, analogous to `pyMin`. -/
def pyMax : List ℤ → ℤ
  | [] => 0
  | x :: xs => xs.foldl max x

/-- statistics.mean: the sum divided by the count. -/
def pyMean (l : List ℤ) : ℚ := (l.sum : ℚ) / (l.length : ℚ)

/-- statistics.median: sort ascending (Python sorted is a stable
ascending sort, modelled by the stable `List.insertionSort`); an odd
length takes the middle element, an even length averages the two middle
elements. -/
def pyMedian (l : List ℤ) : ℚ :=
  let s := l.insertionSort (· ≤ ·)
  let n := s.length
  if n % 2 = 1 then ((s.getD (n / 2) 0 : ℤ) : ℚ)
  else (((s.getD (n / 2 - 1) 0 : ℤ) : ℚ) + ((s.getD (n / 2) 0 : ℤ) : ℚ)) / 2

/-- The square of statistics.stdev: the sample variance
`sum((x - mean)^2) / (n - 1)`.  The scripts take its square root, which
is irrational in general; the square carries the same definedness
information, which is all the claims are about. -/
def sampleVariance (l : List ℤ) : ℚ :=
  ((l.map (fun x => ((x : ℚ) - pyMean l) ^ 2)).sum) / ((l.length : ℚ) - 1)

/-- The block of statistics the scripts print for one numeric list. -/
structure DescribeResult where
  count : ℕ
  sum : ℤ
  mean : ℚ
  median : ℚ
  min : ℤ
  max : ℤ
  stddevSq : Option ℚ
deriving DecidableEq, Repr

/-- The statistics block of stargate-stats.py lines 123-131 /
across-stats.py lines 64-72 for one numeric list.  `stddevSq` is
`none` exactly when the guard `len(latencies) > 1` of line 131 / 72
chooses the "Std Dev: N/A" branch, in which case `statistics.stdev` is
never evaluated (the Python conditional expression is lazy). -/
def describe (l : List ℤ) : DescribeResult :=
  ⟨l.length, l.sum, pyMean l, pyMedian l, pyMin l, pyMax l,
    if 1 < l.length then some (sampleVariance l) else none⟩

/-! ## Python dict association lists

CPython dicts preserve insertion order; writing to an existing key
overwrites the value in place (the key keeps its original position).
`dictInsert` is one `d[k] = v` / dict-comprehension step on such a
dict, represented as an association list. -/

/-- One dict write `d[k] = v`: if the key is present its value is
overwritten in place, otherwise the pair is appended. -/
def dictInsert (m : List (String × String)) (kv : String × String) :
    List (String × String) :=
  if (m.lookup kv.1).isSome then
    m.map (fun p => if p.1 = kv.1 then (p.1, kv.2) else p)
  else m ++ [kv]

/-- The dict comprehension over a stream of key/value pairs, e.g.
stargate-stats.py lines 146-147 and 158-159: pairs are written in
stream order, so a repeated key keeps the value of its last
occurrence. -/
def pyDict (pairs : List (String × String)) : List (String × String) :=
  pairs.foldl dictInsert []

/-- An OFTSent row of the GUID-matching query (lines 136-144):
guid, chainId, dstEid.  GraphQL scalars are modelled as the strings
they are interpolated as. -/
structure SentGuidEvent where
  guid : String
  chainId : String
  dstEid : String
deriving DecidableEq, Repr

/-- An OFTReceived row of the GUID-matching query (lines 149-157):
guid, chainId, srcEid. -/
structure RecvGuidEvent where
  guid : String
  chainId : String
  srcEid : String
deriving DecidableEq, Repr

/-- Lines 146-147: `sent_guids`, the dict comprehension mapping each
sent guid to the route label `f"{chainId}->{dstEid}"`. -/
def sent_guids (evs : List SentGuidEvent) : List (String × String) :=
  pyDict (evs.map (fun e => (e.guid, e.chainId ++ "->" ++ e.dstEid)))

/-- Lines 158-159: `received_guids`, the dict comprehension mapping
each received guid to the route label `f"{srcEid}->{chainId}"`. -/
def received_guids (evs : List RecvGuidEvent) : List (String × String) :=
  pyDict (evs.map (fun e => (e.guid, e.srcEid ++ "->" ++ e.chainId)))

/-- The key list of a dict. -/
def dictKeys (m : List (String × String)) : List String := m.map Prod.fst

/-- Line 161: `set(sent_guids.keys()) & set(received_guids.keys())`. -/
def matched_guids (s : List SentGuidEvent) (r : List RecvGuidEvent) :
    Finset String :=
  (dictKeys (sent_guids s)).toFinset ∩ (dictKeys (received_guids r)).toFinset

/-- Line 163: `len(sent_guids)`. -/
def sentCount (s : List SentGuidEvent) : ℕ := (sent_guids s).length

/-- Line 164: `len(received_guids)`. -/
def receivedCount (r : List RecvGuidEvent) : ℕ := (received_guids r).length

/-- Line 165: `len(matched_guids)`. -/
def matchedCount (s : List SentGuidEvent) (r : List RecvGuidEvent) : ℕ :=
  (matched_guids s r).card

/-- Line 166: `len(matched_guids)/max(len(sent_guids), 1)*100`, with
Python float division modelled as exact rational division. -/
def matchRate (s : List SentGuidEvent) (r : List RecvGuidEvent) : ℚ :=
  (matchedCount s r : ℚ) / (max (sentCount s) 1 : ℕ) * 100

/-! ## Route aggregation

stargate-stats.py lines 93-117 accumulate, per `f"{chainId}->{dstEid}"`
key, a transfer count and a volume, in the dict `eid_combos`, then
print the routes sorted by descending count. -/

/-- The per-route accumulator `{"count": 0, "volume": 0}`. -/
structure RouteStats where
  count : ℕ
  volume : ℤ
deriving DecidableEq, Repr

/-- An OFTSent row of the routing query (lines 95-103): chainId,
dstEid, amountSentLD, the amount already coerced by `int` (the
uncoerced form is covered by `PyVal`). -/
structure SentEvent where
  chainId : String
  dstEid : String
  amountSentLD : ℤ
deriving DecidableEq, Repr

/-- Line 109: the route key `f"{src_eid}->{dst_eid}"`. -/
def routeKey (e : SentEvent) : String := e.chainId ++ "->" ++ e.dstEid

/-- Lines 112-113: `eid_combos[key]["count"] += 1` and
`eid_combos[key]["volume"] += int(event["amountSentLD"])` on one
accumulator. -/
def bumpRoute (amt : ℤ) (s : RouteStats) : RouteStats :=
  ⟨s.count + 1, s.volume + amt⟩

/-- Lines 107-113, the body of the loop for one event: insert the key
with a zero accumulator if absent, then add 1 to its count and the
amount to its volume. -/
def routeStep (m : List (String × RouteStats)) (e : SentEvent) :
    List (String × RouteStats) :=
  let key := routeKey e
  let m1 := if (m.lookup key).isSome then m else m ++ [(key, ⟨0, 0⟩)]
  m1.map (fun p => if p.1 = key then (p.1, bumpRoute e.amountSentLD p.2) else p)

/-- Lines 94-113: the `eid_combos` dict after the whole event loop. -/
def aggregate_routes (evs : List SentEvent) : List (String × RouteStats) :=
  evs.foldl routeStep []

/-- Lines 116: `sorted(eid_combos.items(), key=lambda x: -x[1]["count"])`,
a stable ascending sort on the negated count, i.e. a stable descending
sort on the count, modelled by the stable `List.insertionSort`. -/
def rankRoutes (m : List (String × RouteStats)) : List (String × RouteStats) :=
  m.insertionSort (fun a b => b.2.count ≤ a.2.count)

/-! ## Theorems: failure containment (C1) -/

/-- C1 counterexample: in a run where exactly the CrosschainMessage
query fails, both pipelines abort instead of rendering the remaining
sections, because the query at stargate-stats.py line 50 /
across-stats.py line 49 is issued outside any try/except.  No list of
rendered sections is produced at all, refuting the claim that a
QueryFailure in one section never prevents the other sections from
rendering. -/
theorem uncaught_query_failure_aborts_report :
    stargateReport failCCMEnv = Except.error "boom" ∧
      acrossReport failCCMEnv = Except.error "boom" := by
  constructor <;> rfl

/-- C1 amended: whenever the one unwrapped query (CrosschainMessage)
succeeds, the run always completes and renders every section,
whatever the other queries do; and each section that has its own
try/except contains its QueryFailure: a failing raw-count query
(stargate-stats.py lines 30-34, across-stats.py lines 30-34), a
failing AppPayload query (lines 68-91), a failing EID-routing query
(lines 104-120) and a failing GUID-matching query, on either of its
two queries (lines 145-169), each put an inline error note for that
section only into the rendered list, while a succeeding wrapped
section renders its own results — so rendering of the other,
independent sections proceeds in every case.  The second conjunct
states the same for the across pipeline's wrapped raw-count
section. -/
theorem wrapped_section_failure_contained (env : QueryEnv)
    (hccm : env "CrosschainMessage" = Except.ok ()) :
    (∃ l, stargateReport env = Except.ok l ∧
      "LayerZero CrosschainMessages" ∈ l ∧
      "LayerZero Latency statistics" ∈ l ∧
      (∀ et ∈ stargateEventTypes, ∀ e, env et = Except.error e →
        (et ++ ": Error - " ++ e) ∈ l) ∧
      (∀ et ∈ stargateEventTypes, env et = Except.ok () → (et ++ ": ok") ∈ l) ∧
      (∀ e, env "AppPayload" = Except.error e →
        ("StargateV2 AppPayload analysis error: " ++ e) ∈ l) ∧
      (env "AppPayload" = Except.ok () → "StargateV2 AppPayloads" ∈ l) ∧
      (∀ e, env "StargatePool_OFTSent" = Except.error e →
        ("EID routing analysis error: " ++ e) ∈ l ∧
          ("GUID matching analysis error: " ++ e) ∈ l) ∧
      (env "StargatePool_OFTSent" = Except.ok () →
        "Source EID to Destination EID ranking" ∈ l ∧
          (∀ e, env "StargatePool_OFTReceived" = Except.error e →
            ("GUID matching analysis error: " ++ e) ∈ l) ∧
          (env "StargatePool_OFTReceived" = Except.ok () →
            "GUID Matching Analysis" ∈ l))) ∧
    (∀ envA : QueryEnv, envA "CrosschainMessage" = Except.ok () →
      ∃ la, acrossReport envA = Except.ok la ∧
        "Matched CrosschainMessages" ∈ la ∧
        "Latency statistics" ∈ la ∧
        (∀ et ∈ acrossEventTypes, ∀ e, envA et = Except.error e →
          (et ++ ": Error - " ++ e) ∈ la) ∧
        (∀ et ∈ acrossEventTypes, envA et = Except.ok () →
          (et ++ ": ok") ∈ la)) := by
  constructor
  · refine ⟨stargateSections env, ?_, ?_, ?_, ?_, ?_, ?_, ?_, ?_, ?_⟩
    · simp [stargateReport, hccm]
    · simp [stargateSections]
    · simp [stargateSections]
    · intro et het e he
      exact List.mem_append_left _
        (List.mem_map.mpr ⟨et, het, by simp [renderCountLine, he]⟩)
    · intro et het hok
      exact List.mem_append_left _
        (List.mem_map.mpr ⟨et, het, by simp [renderCountLine, hok]⟩)
    · intro e he
      refine List.mem_append_right _ ?_
      simp [renderAppPayload, he]
    · intro hok
      refine List.mem_append_right _ ?_
      simp [renderAppPayload, hok]
    · intro e he
      constructor <;>
        (refine List.mem_append_right _ ?_;
         simp [renderEidRouting, renderGuidMatching, he])
    · intro hok
      refine ⟨List.mem_append_right _ (by simp [renderEidRouting, hok]), ?_, ?_⟩
      · intro e he
        refine List.mem_append_right _ ?_
        simp [renderGuidMatching, hok, he]
      · intro hrok
        refine List.mem_append_right _ ?_
        simp [renderGuidMatching, hok, hrok]
  · intro envA hA
    refine ⟨acrossSections envA, ?_, ?_, ?_, ?_, ?_⟩
    · simp [acrossReport, hA]
    · simp [acrossSections]
    · simp [acrossSections]
    · intro et het e he
      exact List.mem_append_left _
        (List.mem_map.mpr ⟨et, het, by simp [renderCountLine, he]⟩)
    · intro et het hok
      exact List.mem_append_left _
        (List.mem_map.mpr ⟨et, het, by simp [renderCountLine, hok]⟩)

/-- Witness for the amended C1 at a concrete run in which exactly the
AppPayload query fails: the run completes with the inline error note
and the later latency section rendered. -/
theorem wrapped_section_failure_contained_w :
    ∃ l, stargateReport failAppPayloadEnv = Except.ok l ∧
      ("StargateV2 AppPayload analysis error: " ++ "boom") ∈ l ∧
      "LayerZero Latency statistics" ∈ l := by
  obtain ⟨⟨l, heq, _hccmMem, hlat, _hraw, _hrawok, hapErr, _hapOk,
    _hoftErr, _hoftOk⟩, _hacross⟩ :=
    wrapped_section_failure_contained failAppPayloadEnv rfl
  exact ⟨l, heq, hapErr "boom" rfl, hlat⟩

/-! ## Helper lemmas: folds of binary min and max -/

theorem foldl_min_le_init (xs : List ℤ) : ∀ a : ℤ, xs.foldl min a ≤ a := by
  induction xs with
  | nil => intro a; exact le_refl a
  | cons x xs ih => intro a; exact le_trans (ih (min a x)) (min_le_left a x)

theorem foldl_min_le_mem (xs : List ℤ) :
    ∀ (a y : ℤ), y ∈ xs → xs.foldl min a ≤ y := by
  induction xs with
  | nil => intro a y hy; cases hy
  | cons x xs ih =>
    intro a y hy
    rcases List.mem_cons.mp hy with h | h
    · subst h; exact le_trans (foldl_min_le_init xs (min a y)) (min_le_right a y)
    · exact ih (min a x) y h

theorem foldl_min_mem (xs : List ℤ) :
    ∀ a : ℤ, xs.foldl min a = a ∨ xs.foldl min a ∈ xs := by
  induction xs with
  | nil => intro a; exact Or.inl rfl
  | cons x xs ih =>
    intro a
    rcases ih (min a x) with h | h
    · rcases min_choice a x with h2 | h2
      · exact Or.inl (by simp only [List.foldl_cons]; rw [h, h2])
      · refine Or.inr ?_
        simp only [List.foldl_cons]
        rw [h, h2]
        exact List.mem_cons_self x xs
    · exact Or.inr (List.mem_cons_of_mem x (by simpa using h))

theorem init_le_foldl_max (xs : List ℤ) : ∀ a : ℤ, a ≤ xs.foldl max a := by
  induction xs with
  | nil => intro a; exact le_refl a
  | cons x xs ih => intro a; exact le_trans (le_max_left a x) (ih (max a x))

theorem mem_le_foldl_max (xs : List ℤ) :
    ∀ (a y : ℤ), y ∈ xs → y ≤ xs.foldl max a := by
  induction xs with
  | nil => intro a y hy; cases hy
  | cons x xs ih =>
    intro a y hy
    rcases List.mem_cons.mp hy with h | h
    · subst h; exact le_trans (le_max_right a y) (init_le_foldl_max xs (max a y))
    · exact ih (max a x) y h

theorem foldl_max_mem (xs : List ℤ) :
    ∀ a : ℤ, xs.foldl max a = a ∨ xs.foldl max a ∈ xs := by
  induction xs with
  | nil => intro a; exact Or.inl rfl
  | cons x xs ih =>
    intro a
    rcases ih (max a x) with h | h
    · rcases max_choice a x with h2 | h2
      · exact Or.inl (by simp only [List.foldl_cons]; rw [h, h2])
      · refine Or.inr ?_
        simp only [List.foldl_cons]
        rw [h, h2]
        exact List.mem_cons_self x xs
    · exact Or.inr (List.mem_cons_of_mem x (by simpa using h))

theorem pyMin_le (l : List ℤ) (y : ℤ) (hy : y ∈ l) : pyMin l ≤ y := by
  cases l with
  | nil => cases hy
  | cons x xs =>
    rcases List.mem_cons.mp hy with h | h
    · subst h; exact foldl_min_le_init xs y
    · exact foldl_min_le_mem xs x y h

theorem pyMin_mem (l : List ℤ) (h : l ≠ []) : pyMin l ∈ l := by
  cases l with
  | nil => exact absurd rfl h
  | cons x xs =>
    rcases foldl_min_mem xs x with h2 | h2
    · show xs.foldl min x ∈ x :: xs
      rw [h2]; exact List.mem_cons_self x xs
    · exact List.mem_cons_of_mem x h2

theorem le_pyMax (l : List ℤ) (y : ℤ) (hy : y ∈ l) : y ≤ pyMax l := by
  cases l with
  | nil => cases hy
  | cons x xs =>
    rcases List.mem_cons.mp hy with h | h
    · subst h; exact init_le_foldl_max xs y
    · exact mem_le_foldl_max xs x y h

theorem pyMax_mem (l : List ℤ) (h : l ≠ []) : pyMax l ∈ l := by
  cases l with
  | nil => exact absurd rfl h
  | cons x xs =>
    rcases foldl_max_mem xs x with h2 | h2
    · show xs.foldl max x ∈ x :: xs
      rw [h2]; exact List.mem_cons_self x xs
    · exact List.mem_cons_of_mem x h2

/-! ## Helper lemmas: sum, mean and median bounds -/

theorem list_sum_le_card_mul (l : List ℤ) (M : ℤ) (h : ∀ x ∈ l, x ≤ M) :
    l.sum ≤ l.length * M := by
  induction l with
  | nil => simp
  | cons x xs ih =>
    have hx := h x (List.mem_cons_self x xs)
    have hxs := ih (fun y hy => h y (List.mem_cons_of_mem x hy))
    simp only [List.sum_cons, List.length_cons]
    push_cast
    linarith

theorem card_mul_le_list_sum (l : List ℤ) (m : ℤ) (h : ∀ x ∈ l, m ≤ x) :
    l.length * m ≤ l.sum := by
  induction l with
  | nil => simp
  | cons x xs ih =>
    have hx := h x (List.mem_cons_self x xs)
    have hxs := ih (fun y hy => h y (List.mem_cons_of_mem x hy))
    simp only [List.sum_cons, List.length_cons]
    push_cast
    linarith

theorem pyMean_bounds (l : List ℤ) (h : l ≠ []) :
    (pyMin l : ℚ) ≤ pyMean l ∧ pyMean l ≤ (pyMax l : ℚ) := by
  have hpos : 0 < (l.length : ℚ) := by
    exact_mod_cast List.length_pos.mpr h
  constructor
  · rw [pyMean, le_div_iff₀ hpos]
    have h1 : l.length * pyMin l ≤ l.sum :=
      card_mul_le_list_sum l (pyMin l) (fun x hx => pyMin_le l x hx)
    have : ((l.length * pyMin l : ℤ) : ℚ) ≤ ((l.sum : ℤ) : ℚ) := by exact_mod_cast h1
    push_cast at this ⊢
    linarith
  · rw [pyMean, div_le_iff₀ hpos]
    have h1 : l.sum ≤ l.length * pyMax l :=
      list_sum_le_card_mul l (pyMax l) (fun x hx => le_pyMax l x hx)
    have : ((l.sum : ℤ) : ℚ) ≤ ((l.length * pyMax l : ℤ) : ℚ) := by exact_mod_cast h1
    push_cast at this ⊢
    linarith

theorem pyMedian_bounds (l : List ℤ) (h : l ≠ []) :
    (pyMin l : ℚ) ≤ pyMedian l ∧ pyMedian l ≤ (pyMax l : ℚ) := by
  have hlen : (l.insertionSort (· ≤ ·)).length = l.length :=
    List.length_insertionSort _ l
  have hpos : 0 < (l.insertionSort (· ≤ ·)).length := by
    rw [hlen]; exact List.length_pos.mpr h
  have hmem : ∀ (i : ℕ), i < (l.insertionSort (· ≤ ·)).length →
      (l.insertionSort (· ≤ ·)).getD i 0 ∈ l := by
    intro i hi
    rw [List.getD_eq_getElem _ _ hi]
    exact (List.mem_insertionSort _).mp (List.getElem_mem hi)
  simp only [pyMedian]
  by_cases hodd : (l.insertionSort (· ≤ ·)).length % 2 = 1
  · rw [if_pos hodd]
    have hi : (l.insertionSort (· ≤ ·)).length / 2 <
        (l.insertionSort (· ≤ ·)).length := Nat.div_lt_self hpos one_lt_two
    have hm := hmem _ hi
    exact ⟨Int.cast_le.mpr (pyMin_le l _ hm), Int.cast_le.mpr (le_pyMax l _ hm)⟩
  · rw [if_neg hodd]
    have hi2 : (l.insertionSort (· ≤ ·)).length / 2 <
        (l.insertionSort (· ≤ ·)).length := Nat.div_lt_self hpos one_lt_two
    have hi1 : (l.insertionSort (· ≤ ·)).length / 2 - 1 <
        (l.insertionSort (· ≤ ·)).length :=
      lt_of_le_of_lt (Nat.sub_le _ 1) hi2
    have hm1 := hmem _ hi1
    have hm2 := hmem _ hi2
    have b1min : (pyMin l : ℚ) ≤
        ((l.insertionSort (· ≤ ·)).getD ((l.insertionSort (· ≤ ·)).length / 2 - 1) 0 : ℤ) :=
      Int.cast_le.mpr (pyMin_le l _ hm1)
    have b2min : (pyMin l : ℚ) ≤
        ((l.insertionSort (· ≤ ·)).getD ((l.insertionSort (· ≤ ·)).length / 2) 0 : ℤ) :=
      Int.cast_le.mpr (pyMin_le l _ hm2)
    have b1max : (((l.insertionSort (· ≤ ·)).getD
        ((l.insertionSort (· ≤ ·)).length / 2 - 1) 0 : ℤ) : ℚ) ≤ (pyMax l : ℚ) :=
      Int.cast_le.mpr (le_pyMax l _ hm1)
    have b2max : (((l.insertionSort (· ≤ ·)).getD
        ((l.insertionSort (· ≤ ·)).length / 2) 0 : ℤ) : ℚ) ≤ (pyMax l : ℚ) :=
      Int.cast_le.mpr (le_pyMax l _ hm2)
    constructor <;> [linarith; linarith]

/-! ## Theorems: statistics engine (C4, C8) -/

/-- C4: describe on a singleton sequence yields count 1, sum, mean,
median, min and max all equal to the element, and a not-applicable
standard deviation: the guard `len > 1` of line 131 / 72 selects the
"N/A" branch, so the sample standard deviation is only computed for
count at least 2 and requesting the block for a singleton cannot
crash. -/
theorem describe_singleton (x : ℤ) :
    (describe [x]).count = 1 ∧ (describe [x]).sum = x ∧
      (describe [x]).mean = (x : ℚ) ∧ (describe [x]).median = (x : ℚ) ∧
      (describe [x]).min = x ∧ (describe [x]).max = x ∧
      (describe [x]).stddevSq = none := by
  refine ⟨rfl, by simp [describe], ?_, ?_, rfl, rfl, rfl⟩
  · simp [describe, pyMean]
  · simp [describe, pyMedian, List.insertionSort]

/-- C8: for every nonempty integer sequence, the mean and the median
both lie between the minimum and the maximum. -/
theorem describe_order_bounds (l : List ℤ) (h : l ≠ []) :
    (((describe l).min : ℚ) ≤ (describe l).mean ∧
      (describe l).mean ≤ ((describe l).max : ℚ)) ∧
    (((describe l).min : ℚ) ≤ (describe l).median ∧
      (describe l).median ≤ ((describe l).max : ℚ)) :=
  ⟨pyMean_bounds l h, pyMedian_bounds l h⟩

/-- Witness for C8 at the concrete sequence [3, 1, 2]. -/
theorem describe_order_bounds_w :
    (((describe [3, 1, 2]).min : ℚ) ≤ (describe [3, 1, 2]).mean ∧
      (describe [3, 1, 2]).mean ≤ ((describe [3, 1, 2]).max : ℚ)) ∧
    (((describe [3, 1, 2]).min : ℚ) ≤ (describe [3, 1, 2]).median ∧
      (describe [3, 1, 2]).median ≤ ((describe [3, 1, 2]).max : ℚ)) :=
  describe_order_bounds [3, 1, 2] (by decide)

/-! ## Theorems: numeric field coercion (C3) -/

theorem extractAmounts_all_clean (ps : List PyVal)
    (hv : ∀ v ∈ ps, v = PyVal.vNull ∨ ∃ n, v = PyVal.vNum n) :
    extractAmounts ps = Except.ok (ps.filterMap numOf) := by
  induction ps with
  | nil => rfl
  | cons v rest ih =>
    have hrest := ih (fun w hw => hv w (List.mem_cons_of_mem v hw))
    rcases hv v (List.mem_cons_self v rest) with hnull | ⟨n, hn⟩
    · subst hnull
      simp [extractAmounts, hrest, numOf, List.filterMap_cons]
    · subst hn
      simp [extractAmounts, pyIntCoerce, hrest, numOf, List.filterMap_cons]

/-- C3 counterexample: a record whose numeric field is non-numeric
under `int(...)` is NOT merely excluded: the coercion raises inside
the comprehension of stargate-stats.py line 73 / 123, so no statistics
list is produced at all for that section; had the record been
excluded, the result would have been `Except.ok [5, 7]`. -/
theorem non_numeric_aborts_extraction :
    extractAmounts [PyVal.vNum 5, PyVal.vNonNum "abc", PyVal.vNum 7] =
        Except.error ("ValueError: " ++ "abc") ∧
      extractAmounts [PyVal.vNum 5, PyVal.vNonNum "abc", PyVal.vNum 7] ≠
        Except.ok [5, 7] :=
  ⟨rfl, fun h => Except.noConfusion h⟩

/-- C3 amended: in the comprehensions that filter on `is not None`
(stargate-stats.py lines 73-74 and 123, across-stats.py line 64), a
record whose numeric field is absent (None) is excluded from the
statistic and never aborts the computation; but a record whose field
is non-numeric under integer coercion raises, aborting that whole
section's computation (caught at the section boundary where one
exists).  When every record is either absent-valued or numeric, the
comprehension succeeds with exactly the numeric values, absences
excluded. -/
theorem extractAmounts_null_excluded (ps : List PyVal)
    (hv : ∀ v ∈ ps, v = PyVal.vNull ∨ ∃ n, v = PyVal.vNum n) :
    extractAmounts (PyVal.vNull :: ps) = extractAmounts ps ∧
      extractAmounts ps = Except.ok (ps.filterMap numOf) :=
  ⟨rfl, extractAmounts_all_clean ps hv⟩

/-- Witness for the amended C3 at a concrete record list. -/
theorem extractAmounts_null_excluded_w :
    extractAmounts (PyVal.vNull :: [PyVal.vNum 4, PyVal.vNull, PyVal.vNum 6]) =
        extractAmounts [PyVal.vNum 4, PyVal.vNull, PyVal.vNum 6] ∧
      extractAmounts [PyVal.vNum 4, PyVal.vNull, PyVal.vNum 6] =
        Except.ok ([PyVal.vNum 4, PyVal.vNull, PyVal.vNum 6].filterMap numOf) :=
  extractAmounts_null_excluded [PyVal.vNum 4, PyVal.vNull, PyVal.vNum 6]
    (by
      intro v hv
      simp only [List.mem_cons, List.not_mem_nil, or_false] at hv
      rcases hv with rfl | rfl | rfl
      · exact Or.inr ⟨4, rfl⟩
      · exact Or.inl rfl
      · exact Or.inr ⟨6, rfl⟩)

/-! ## Helper lemmas: association-list lookups

These lemmas describe `List.lookup` over the dict operations; they are
generic in the value type so that both the string dicts of the GUID
matcher and the accumulator dict of the route aggregation are
covered. -/

theorem lookup_cons {β : Type} (k a : String) (b : β) (rest : List (String × β)) :
    List.lookup k ((a, b) :: rest) = if k = a then some b else List.lookup k rest := by
  by_cases h : k = a
  · subst h; simp [List.lookup]
  · have hb : (k == a) = false := by simpa using h
    simp [List.lookup, hb, h]

theorem lookup_map_update {β : Type} (m : List (String × β)) (k k1 : String)
    (f : β → β) :
    (m.map (fun p => if p.1 = k then (p.1, f p.2) else p)).lookup k1 =
      if k1 = k then (m.lookup k).map f else m.lookup k1 := by
  induction m with
  | nil => by_cases h : k1 = k <;> simp [List.lookup, h]
  | cons p rest ih =>
    obtain ⟨a, b⟩ := p
    by_cases hak : a = k
    · subst hak
      by_cases hk1 : k1 = a
      · subst hk1
        simp [lookup_cons]
      · simp [lookup_cons, hk1, ih]
    · by_cases hk1 : k1 = a
      · subst hk1
        simp [lookup_cons, hak]
      · by_cases hkk : k1 = k
        · subst hkk
          simp [lookup_cons, hk1, hak, ih]
        · simp [lookup_cons, hk1, hkk, hak, ih]

theorem lookup_append_dict {β : Type} (m m2 : List (String × β)) (k1 : String) :
    (m ++ m2).lookup k1 =
      match m.lookup k1 with
      | some v => some v
      | none => m2.lookup k1 := by
  induction m with
  | nil => simp [List.lookup]
  | cons p rest ih =>
    obtain ⟨a, b⟩ := p
    by_cases h : k1 = a
    · subst h; simp [lookup_cons]
    · simp [lookup_cons, h, ih]

theorem lookup_isSome_iff_mem_keys {β : Type} (m : List (String × β)) (k : String) :
    (m.lookup k).isSome = true ↔ k ∈ m.map Prod.fst := by
  induction m with
  | nil => simp [List.lookup]
  | cons p rest ih =>
    obtain ⟨a, b⟩ := p
    by_cases h : k = a
    · subst h; simp [lookup_cons]
    · simp [lookup_cons, h, ih]

theorem lookup_map_setval {β : Type} (m : List (String × β)) (k k1 : String)
    (v : β) :
    (m.map (fun p => if p.1 = k then (p.1, v) else p)).lookup k1 =
      if k1 = k then (m.lookup k).map (fun _ => v) else m.lookup k1 := by
  induction m with
  | nil => by_cases h : k1 = k <;> simp [List.lookup, h]
  | cons p rest ih =>
    obtain ⟨a, b⟩ := p
    by_cases hak : a = k
    · subst hak
      by_cases hk1 : k1 = a
      · subst hk1
        simp [lookup_cons]
      · simp [lookup_cons, hk1, ih]
    · by_cases hk1 : k1 = a
      · subst hk1
        simp [lookup_cons, hak]
      · by_cases hkk : k1 = k
        · subst hkk
          simp [lookup_cons, hk1, hak, ih]
        · simp [lookup_cons, hk1, hkk, hak, ih]

theorem lookup_dictInsert (m : List (String × String)) (kv : String × String)
    (k1 : String) :
    (dictInsert m kv).lookup k1 =
      if k1 = kv.1 then some kv.2 else m.lookup k1 := by
  obtain ⟨k, v⟩ := kv
  by_cases hp : (m.lookup k).isSome = true
  · obtain ⟨w, hw⟩ := Option.isSome_iff_exists.mp hp
    simp only [dictInsert, hp, if_true]
    rw [lookup_map_setval]
    by_cases hk : k1 = k
    · subst hk; simp [hw]
    · simp [hk]
  · have hp2 : m.lookup k = none := Option.not_isSome_iff_eq_none.mp (by simpa using hp)
    simp only [dictInsert, hp, if_false, Bool.false_eq_true]
    rw [lookup_append_dict]
    by_cases hk : k1 = k
    · subst hk; simp [hp2, lookup_cons]
    · cases hx : m.lookup k1 with
      | some w => simp [hx, hk]
      | none => simp [hx, hk, lookup_cons]

theorem dictKeys_dictInsert (m : List (String × String)) (kv : String × String) :
    dictKeys (dictInsert m kv) =
      if (m.lookup kv.1).isSome then dictKeys m else dictKeys m ++ [kv.1] := by
  obtain ⟨k, v⟩ := kv
  by_cases hp : (m.lookup k).isSome = true
  · simp only [dictInsert, dictKeys, hp, if_true]
    rw [List.map_map]
    apply List.map_congr_left
    intro p _
    by_cases h : p.1 = k <;> simp [h]
  · simp [dictInsert, dictKeys, hp]

theorem dictInsert_keys_nodup (m : List (String × String)) (kv : String × String)
    (h : (dictKeys m).Nodup) : (dictKeys (dictInsert m kv)).Nodup := by
  rw [dictKeys_dictInsert]
  by_cases hp : (m.lookup kv.1).isSome = true
  · simpa [hp] using h
  · have hk : kv.1 ∉ dictKeys m := by
      intro hmem
      exact hp ((lookup_isSome_iff_mem_keys m kv.1).mpr hmem)
    simp only [hp, if_false, Bool.false_eq_true]
    rw [List.nodup_append]
    refine ⟨h, List.nodup_singleton _, ?_⟩
    intro a ha hb
    simp only [List.mem_singleton] at hb
    exact hk (hb ▸ ha)

theorem pyDict_keys_nodup (pairs : List (String × String)) :
    (dictKeys (pyDict pairs)).Nodup := by
  suffices h : ∀ m : List (String × String), (dictKeys m).Nodup →
      (dictKeys (pairs.foldl dictInsert m)).Nodup by
    exact h [] (by simp [dictKeys])
  induction pairs with
  | nil => intro m hm; exact hm
  | cons p rest ih =>
    intro m hm
    exact ih (dictInsert m p) (dictInsert_keys_nodup m p hm)

theorem find?_append_dict {α : Type} (l1 l2 : List α) (p : α → Bool) :
    (l1 ++ l2).find? p =
      match l1.find? p with
      | some x => some x
      | none => l2.find? p := by
  induction l1 with
  | nil => simp
  | cons x rest ih =>
    by_cases h : p x
    · simp [List.find?, h]
    · have hx : ∀ t : List α, List.find? p (x :: t) = List.find? p t := fun t => by
        simp [List.find?, h]
      rw [List.cons_append, hx, hx, ih]

theorem foldl_dictInsert_lookup (pairs : List (String × String)) :
    ∀ (m : List (String × String)) (g : String),
      (pairs.foldl dictInsert m).lookup g =
        match pairs.reverse.find? (fun q => q.1 == g) with
        | some q => some q.2
        | none => m.lookup g := by
  induction pairs with
  | nil => intro m g; simp
  | cons p rest ih =>
    intro m g
    simp only [List.foldl_cons, List.reverse_cons]
    rw [ih, find?_append_dict]
    cases hf : rest.reverse.find? (fun q => q.1 == g) with
    | some q => rfl
    | none =>
      rw [lookup_dictInsert]
      by_cases h : g = p.1
      · have hb : (p.1 == g) = true := by simpa using h.symm
        simp [List.find?, hb, h]
      · have hb : (p.1 == g) = false := by simpa using fun hh => h hh.symm
        simp [List.find?, hb, h]

theorem pyDict_lookup_last (pairs : List (String × String)) (g : String) :
    (pyDict pairs).lookup g =
      (pairs.reverse.find? (fun q => q.1 == g)).map Prod.snd := by
  rw [pyDict, foldl_dictInsert_lookup]
  cases hf : pairs.reverse.find? (fun q => q.1 == g) <;> simp [List.lookup]

/-! ## Theorems: GUID matcher (C6, C7, C2) -/

/-- C6: in the guid-to-route-label dict comprehensions, a repeated
guid makes the later record overwrite the earlier (dict writes happen
in stream order), so the finished mapping has exactly one entry per
distinct guid (no duplicate keys) whose label is the one of the last
occurrence in stream order (the first hit on the reversed stream).
Stated for the generic comprehension `pyDict` and instantiated at the
sent stream of stargate-stats.py lines 146-147 (the received stream of
lines 158-159 is the same comprehension over its own label). -/
theorem pyDict_last_write_wins :
    (∀ (pairs : List (String × String)) (g : String),
      (dictKeys (pyDict pairs)).Nodup ∧
        (pyDict pairs).lookup g =
          (pairs.reverse.find? (fun q => q.1 == g)).map Prod.snd) ∧
    (∀ (evs : List SentGuidEvent) (g : String),
      (sent_guids evs).lookup g =
        (evs.reverse.find? (fun e => e.guid == g)).map
          (fun e => e.chainId ++ "->" ++ e.dstEid)) := by
  constructor
  · intro pairs g
    exact ⟨pyDict_keys_nodup pairs, pyDict_lookup_last pairs g⟩
  · intro evs g
    rw [sent_guids, pyDict_lookup_last, ← List.map_reverse, List.find?_map]
    simp [Function.comp_def, Option.map_map]

theorem sent_keys_card (s : List SentGuidEvent) :
    ((dictKeys (sent_guids s)).toFinset).card = sentCount s := by
  have hnd : (dictKeys (sent_guids s)).Nodup := by
    rw [sent_guids]; exact pyDict_keys_nodup _
  rw [List.toFinset_card_of_nodup hnd]
  simp [dictKeys, sentCount]

theorem recv_keys_card (r : List RecvGuidEvent) :
    ((dictKeys (received_guids r)).toFinset).card = receivedCount r := by
  have hnd : (dictKeys (received_guids r)).Nodup := by
    rw [received_guids]; exact pyDict_keys_nodup _
  rw [List.toFinset_card_of_nodup hnd]
  simp [dictKeys, receivedCount]

theorem matchedCount_le_sentCount (s : List SentGuidEvent)
    (r : List RecvGuidEvent) : matchedCount s r ≤ sentCount s := by
  calc matchedCount s r ≤ ((dictKeys (sent_guids s)).toFinset).card :=
        Finset.card_le_card Finset.inter_subset_left
  _ = sentCount s := sent_keys_card s

/-- C7: the matched count is the size of the intersection of the two
guid key sets (line 161), hence at most the minimum of the sent and
received counts. -/
theorem matchedCount_inter_le_min (s : List SentGuidEvent)
    (r : List RecvGuidEvent) :
    matchedCount s r =
      ((dictKeys (sent_guids s)).toFinset ∩
        (dictKeys (received_guids r)).toFinset).card ∧
    matchedCount s r ≤ min (sentCount s) (receivedCount r) := by
  refine ⟨rfl, le_min (matchedCount_le_sentCount s r) ?_⟩
  calc matchedCount s r ≤ ((dictKeys (received_guids r)).toFinset).card :=
        Finset.card_le_card Finset.inter_subset_right
  _ = receivedCount r := recv_keys_card r

/-- C2: the match rate of line 166 is matched count over
`max(sentCount, 1)`, times 100; it always lies in [0, 100], and an
empty sent stream gives rate 0 with no division by zero (the divisor
is 1 there). -/
theorem matchRate_bounds (s : List SentGuidEvent) (r : List RecvGuidEvent) :
    0 ≤ matchRate s r ∧ matchRate s r ≤ 100 ∧
      (s = [] → matchRate s r = 0) := by
  refine ⟨?_, ?_, ?_⟩
  · rw [matchRate]; positivity
  · have hd : (0 : ℚ) < ((max (sentCount s) 1 : ℕ) : ℚ) := by
      exact_mod_cast lt_of_lt_of_le one_pos (le_max_right (sentCount s) 1)
    have hm : ((matchedCount s r : ℕ) : ℚ) ≤ ((max (sentCount s) 1 : ℕ) : ℚ) := by
      exact_mod_cast le_trans (matchedCount_le_sentCount s r)
        (le_max_left (sentCount s) 1)
    have h1 : ((matchedCount s r : ℕ) : ℚ) / ((max (sentCount s) 1 : ℕ) : ℚ) ≤ 1 :=
      (div_le_one hd).mpr hm
    calc matchRate s r ≤ 1 * 100 := by
          rw [matchRate]
          exact mul_le_mul_of_nonneg_right h1 (by norm_num)
    _ = 100 := by norm_num
  · intro hs
    subst hs
    have h0 : matchedCount [] r = 0 := by
      simp [matchedCount, matched_guids, sent_guids, pyDict, dictKeys]
    rw [matchRate, h0]
    simp

/-- Witness for C2 at concrete streams: the empty sent stream against a
one-event received stream. -/
theorem matchRate_bounds_w :
    0 ≤ matchRate [] [⟨"g1", "10", "20"⟩] ∧
      matchRate [] [⟨"g1", "10", "20"⟩] ≤ 100 ∧
      (([] : List SentGuidEvent) = [] →
        matchRate [] [⟨"g1", "10", "20"⟩] = 0) :=
  matchRate_bounds [] [⟨"g1", "10", "20"⟩]

/-! ## Theorems: route aggregation (C5, C9, C10) -/

theorem lookup_routeStep (m : List (String × RouteStats)) (e : SentEvent)
    (k1 : String) :
    (routeStep m e).lookup k1 =
      if k1 = routeKey e then
        some (bumpRoute e.amountSentLD ((m.lookup (routeKey e)).getD ⟨0, 0⟩))
      else m.lookup k1 := by
  simp only [routeStep]
  by_cases hp : (m.lookup (routeKey e)).isSome = true
  · obtain ⟨w, hw⟩ := Option.isSome_iff_exists.mp hp
    simp only [hp, if_true]
    rw [lookup_map_update m (routeKey e) k1 (bumpRoute e.amountSentLD)]
    by_cases hk : k1 = routeKey e
    · subst hk; simp [hw]
    · simp [hk]
  · have hp2 : m.lookup (routeKey e) = none :=
      Option.not_isSome_iff_eq_none.mp (by simpa using hp)
    simp only [hp, if_false, Bool.false_eq_true]
    rw [lookup_map_update (m ++ [(routeKey e, (⟨0, 0⟩ : RouteStats))]) (routeKey e) k1
      (bumpRoute e.amountSentLD)]
    by_cases hk : k1 = routeKey e
    · subst hk
      simp [lookup_append_dict, hp2, lookup_cons]
    · simp only [if_neg hk]
      rw [lookup_append_dict]
      cases hx : m.lookup k1 with
      | some w => simp [hx]
      | none => simp [hx, lookup_cons, hk]

theorem lookup_foldl_routeStep (evs : List SentEvent) :
    ∀ (m : List (String × RouteStats)) (k : String),
      (evs.foldl routeStep m).lookup k =
        match m.lookup k with
        | some s =>
          some ⟨s.count + (evs.filter (fun e => routeKey e == k)).length,
            s.volume +
              ((evs.filter (fun e => routeKey e == k)).map SentEvent.amountSentLD).sum⟩
        | none =>
          if (evs.filter (fun e => routeKey e == k)) = [] then none
          else
            some ⟨(evs.filter (fun e => routeKey e == k)).length,
              ((evs.filter (fun e => routeKey e == k)).map SentEvent.amountSentLD).sum⟩ := by
  induction evs with
  | nil =>
    intro m k
    simp only [List.foldl_nil, List.filter_nil, List.length_nil, List.map_nil,
      List.sum_nil]
    cases hx : m.lookup k with
    | some s => simp [hx]
    | none => simp [hx]
  | cons e rest ih =>
    intro m k
    simp only [List.foldl_cons]
    rw [ih, lookup_routeStep]
    by_cases hk : k = routeKey e
    · subst hk
      have hpe : (routeKey e == routeKey e) = true := beq_self_eq_true _
      simp only [List.filter_cons, hpe, if_true, List.length_cons, List.map_cons,
        List.sum_cons]
      cases hx : m.lookup (routeKey e) with
      | some s =>
        simp only [hx, if_pos rfl, Option.getD_some, bumpRoute]
        simp only [Option.some.injEq, RouteStats.mk.injEq]
        constructor
        · omega
        · ring
      | none =>
        simp only [hx, if_pos rfl, Option.getD_none, bumpRoute]
        rw [if_neg (List.cons_ne_nil e _)]
        simp only [Option.some.injEq, RouteStats.mk.injEq]
        constructor
        · omega
        · ring
    · have hpe : (routeKey e == k) = false := by
        simpa using fun hh => hk hh.symm
      simp only [List.filter_cons, hpe, if_neg, Bool.false_eq_true, if_false]
      rw [if_neg hk]

/-- C5: the eid_combos accumulator of stargate-stats.py lines 94-113
maps each route key to the number of its events and the sum of their
amounts, an empty event sequence yields the empty mapping, and the
spec example [(A,B,10), (A,B,20), (C,D,5)] yields exactly
two buckets with counts 2 and 1 and volumes 30 and 5. -/
theorem aggregate_routes_spec :
    (∀ (evs : List SentEvent) (k : String),
      (aggregate_routes evs).lookup k =
        (if (evs.filter (fun e => routeKey e == k)) = [] then none
         else
           some ⟨(evs.filter (fun e => routeKey e == k)).length,
             ((evs.filter (fun e => routeKey e == k)).map SentEvent.amountSentLD).sum⟩)) ∧
    aggregate_routes [] = [] ∧
    aggregate_routes [⟨"A", "B", 10⟩, ⟨"A", "B", 20⟩, ⟨"C", "D", 5⟩] =
      [("A->B", ⟨2, 30⟩), ("C->D", ⟨1, 5⟩)] := by
  refine ⟨?_, rfl, by decide⟩
  intro evs k
  rw [aggregate_routes, lookup_foldl_routeStep]
  simp [List.lookup]

/-- C9: the route presentation of stargate-stats.py lines 115-117 and
across-stats.py lines 59-61 sorts by descending count (Python sorted
with key minus count, a stable sort); in particular for counts 5, 9, 9
both count-9 routes precede the count-5 route. -/
theorem rankRoutes_desc_count :
    (∀ m : List (String × RouteStats),
      List.Sorted (fun a b : String × RouteStats => b.2.count ≤ a.2.count)
          (rankRoutes m) ∧
        (rankRoutes m).Perm m) ∧
    rankRoutes [("A->B", ⟨5, 50⟩), ("C->D", ⟨9, 90⟩), ("E->F", ⟨9, 91⟩)] =
      [("C->D", ⟨9, 90⟩), ("E->F", ⟨9, 91⟩), ("A->B", ⟨5, 50⟩)] := by
  constructor
  · intro m
    constructor
    · haveI ht : IsTotal (String × RouteStats)
          (fun a b => b.2.count ≤ a.2.count) :=
        ⟨fun a b => le_total b.2.count a.2.count⟩
      haveI htr : IsTrans (String × RouteStats)
          (fun a b => b.2.count ≤ a.2.count) :=
        ⟨fun a b c hab hbc => le_trans hbc hab⟩
      exact List.sorted_insertionSort _ m
    · exact List.perm_insertionSort _ m
  · decide

/-- C10: the route key of stargate-stats.py line 109 (and
across-stats.py line 57) is plain string interpolation with a "->"
separator, which is not injective: the distinct source/destination
pairs ("1->2", "3") and ("1", "2->3") produce the same key
"1->2->3", so their events are silently merged into one bucket whose
count and volume add both routes together. -/
theorem routeKey_collision :
    routeKey ⟨"1->2", "3", 10⟩ = routeKey ⟨"1", "2->3", 20⟩ ∧
      (("1->2", "3") : String × String) ≠ ("1", "2->3") ∧
      aggregate_routes [⟨"1->2", "3", 10⟩, ⟨"1", "2->3", 20⟩] =
        [("1->2->3", ⟨2, 30⟩)] := by
  refine ⟨rfl, by decide, by decide⟩

end Bridgeroni
